import Mathlib

/-!
Verification of the freelan-all FSCP sample client (`samples/client/client.cpp`)
and of the protocol engine it drives, against the natural-language
specification.  The sample's own logic (signal handling, the data-received
handler) is embedded directly from the source; the fscp engine (`fscp::server`)
is not part of the visible sources, so its behaviour is modelled from the
specification, each such definition saying so in its doc comment.
-/

namespace Client

/-! ## The sample's signal handling (client.cpp, `signal_handler`) -/

/-- Signal codes as seen by `signal_handler`: the three it catches, and
anything else. -/
inductive Signal
  | sigterm
  | sigint
  | sigabrt
  | other
deriving DecidableEq, Repr

/-- State touched by `signal_handler`: whether the global `stop_function`
slot is non-null, and how many times the stop function has been invoked. -/
structure SigState where
  slotSet : Bool
  stopCount : Nat
deriving DecidableEq, Repr

/-- Whether a signal code falls in the `SIGTERM`/`SIGINT`/`SIGABRT` cases of
the switch in `signal_handler`. -/
def isStopSignal : Signal → Bool
  | .sigterm => true
  | .sigint => true
  | .sigabrt => true
  | .other => false

/-- `signal_handler` from client.cpp: on SIGTERM, SIGINT or SIGABRT, if the
`stop_function` slot is set, invoke it and reset the slot to null; all other
signals (and signals arriving once the slot is null) do nothing. -/
def signal_handler (code : Signal) (s : SigState) : SigState :=
  if isStopSignal code then
    if s.slotSet then { slotSet := false, stopCount := s.stopCount + 1 }
    else s
  else s

/-- Process a sequence of caught signals in order. -/
def run_signals : List Signal → SigState → SigState
  | [], s => s
  | c :: cs, s => run_signals cs (signal_handler c s)

/-! ## The sample's data-received handler (client.cpp, `on_data`) -/

/-- Channel numbers used by the sample. -/
def CHANNEL_NUMBER_3 : Nat := 3

/-- The reply channel used by the sample. -/
def CHANNEL_NUMBER_4 : Nat := 4

/-- Little-endian byte encoding of the 4-byte `int` counter the sample sends
via `boost::asio::buffer(&local_counter, sizeof(local_counter))`. -/
def encode_counter (n : Nat) : List Nat :=
  [n % 256, n / 256 % 256, n / 65536 % 256, n / 16777216 % 256]

/-- A call to `async_send_data` issued by a handler: destination endpoint,
channel number and payload bytes. -/
structure SendOp where
  dest : Nat
  channel : Nat
  payload : List Nat
deriving DecidableEq, Repr

/-- A console line printed by `on_data` (content abstracted to the values
that appear in it). -/
inductive ConsoleLine
  | dataText (name : String) (channel : Nat) (sender : Nat) (bytes : List Nat)
  | dataCounter (name : String) (channel : Nat) (sender : Nat) (value : Nat)
deriving DecidableEq, Repr

/-- Result of one `on_data` invocation: console output, the send operations
issued, and the new value of the shared `send_counter`. -/
structure OnDataResult where
  output : List ConsoleLine
  sends : List SendOp
  counter : Nat
deriving DecidableEq, Repr

/-- `on_data` from client.cpp: print the payload (as text on channel 3, as an
integer on channel 4), then, exactly when the local name is "alice" or
"chris", post-increment the shared counter and send its old value back to the
sender on channel 4.  `data` is the received payload, `counter` the current
value of the shared `send_counter`. -/
def on_data (name : String) (sender : Nat) (channel : Nat) (data : List Nat)
    (counter : Nat) : OnDataResult :=
  let output :=
    if channel = CHANNEL_NUMBER_3 then
      [ConsoleLine.dataText name channel sender data]
    else if channel = CHANNEL_NUMBER_4 then
      [ConsoleLine.dataCounter name channel sender (decode_int data)]
    else []
  if name = "alice" ∨ name = "chris" then
    { output := output
      sends := [{ dest := sender, channel := CHANNEL_NUMBER_4,
                  payload := encode_counter counter }]
      counter := counter + 1 }
  else
    { output := output, sends := [], counter := counter }
where
  /-- `*buffer_cast<const int*>(data)`: read the 4 little-endian bytes back
  as an integer. -/
  decode_int : List Nat → Nat
    | b0 :: b1 :: b2 :: b3 :: _ => b0 + 256 * b1 + 65536 * b2 + 16777216 * b3
    | _ => 0

end Client

namespace Fscp

/-! ## Session / crypto layer (spec models)

The fscp engine (`fscp::server`) is not among the visible sources: the sample
only calls it.  The definitions below are therefore modelled from the
specification, sections 4.2, 4.3 and 6. -/

/-- Modelled from the spec: the 1-byte wire message-type tags (spec section 6,
"Wire format").  The engine source is not under the visible tree. -/
inductive MsgType
  | hello
  | helloResponse
  | presentation
  | sessionRequest
  | session
  | dataMsg
  | contactRequest
  | contact
  | errorMsg
deriving DecidableEq, Repr

/-- Modelled from the spec: a post-session DATA datagram — message-type tag,
1-byte channel number, per-direction sequence counter, encrypted payload and
authentication tag (spec sections 4.2/4.3/6); the engine source is missing. -/
structure Datagram where
  tag : MsgType
  channel : Nat
  seq : Nat
  payload : List Nat
  auth : Nat
deriving DecidableEq, Repr

/-- Modelled from the spec: the AEAD encryption delegated to the external
cryptographic capability (spec section 4.2), rendered as a concrete byte-wise
keyed transformation on byte values. -/
def aead_encrypt (key seq : Nat) (b : List Nat) : List Nat :=
  b.map fun x => (x + key + seq) % 256

/-- Modelled from the spec: the matching AEAD decryption. -/
def aead_decrypt (key seq : Nat) (ct : List Nat) : List Nat :=
  ct.map fun x => (x + 256 * (key + seq + 1) - (key + seq)) % 256

/-- Modelled from the spec: the authentication tag computed over the channel
number, sequence counter and ciphertext under the session key (spec section
4.2). -/
def auth_tag (key seq channel : Nat) (ct : List Nat) : Nat :=
  ct.foldl (fun a x => a * 257 + x + 1) 0 + key * 1000003 + seq * 1009 + channel * 101

/-- Modelled from the spec: the sending half of a per-peer session — the
negotiated key and the outbound per-direction sequence counter. -/
structure SessionSend where
  key : Nat
  seq : Nat
deriving DecidableEq, Repr

/-- Modelled from the spec: the receiving half of a per-peer session — the
negotiated key and the highest inbound sequence number accepted so far. -/
structure SessionRecv where
  key : Nat
  lastSeq : Nat
deriving DecidableEq, Repr

/-- Modelled from the spec, section 4.3: `send(endpoint, channel, bytes)`
advances the outbound sequence counter and emits one DATA datagram tagged with
the channel, carrying the encrypted payload and its authentication tag. -/
def send_data (st : SessionSend) (channel : Nat) (b : List Nat) :
    Datagram × SessionSend :=
  let s := st.seq + 1
  let ct := aead_encrypt st.key s b
  (⟨MsgType.dataMsg, channel, s, ct, auth_tag st.key s channel ct⟩,
   { st with seq := s })

/-- Modelled from the spec, sections 4.2/4.3: on an inbound datagram the
session layer verifies the message tag, the authentication tag and the
sequence counter; only a fresh (strictly increasing), correctly authenticated
DATA datagram is decrypted and delivered to the data-received handler as
`(channel, payload)`; anything else is dropped silently, the state
untouched. -/
def recv_data (st : SessionRecv) (d : Datagram) :
    Option (Nat × List Nat) × SessionRecv :=
  if d.tag = MsgType.dataMsg ∧ d.auth = auth_tag st.key d.seq d.channel d.payload ∧
      st.lastSeq < d.seq then
    (some (d.channel, aead_decrypt st.key d.seq d.payload),
     { st with lastSeq := d.seq })
  else
    (none, st)

/-! ## HELLO handling (spec model) -/

/-- Observable effects of the engine's HELLO handling. -/
inductive HelloEffect
  | callbackInvoked (sender : Nat) (defaultAccept : Bool)
  | sendPresentationTo (sender : Nat)
deriving DecidableEq, Repr

/-- Modelled from the spec, section 4.1: on receiving HELLO the engine invokes
the accept-decision callback with `(endpoint, defaultAccept)`; if it accepts,
the engine automatically introduces itself — it sends its own PRESENTATION to
the sender without the hosting application issuing an introduce operation.
The engine source is missing from the visible tree. -/
def handle_hello (cb : Nat → Bool → Bool) (sender : Nat) (defaultAccept : Bool) :
    List HelloEffect :=
  HelloEffect.callbackInvoked sender defaultAccept ::
    (if cb sender defaultAccept then [HelloEffect.sendPresentationTo sender] else [])

/-! ## Per-peer handshake state machine (spec model) -/

/-- Modelled from the spec, section 4.1: the per-peer handshake phase.  After
loss or failure the peer returns to idle. -/
inductive Phase
  | idle
  | presented
  | sessionRequested
  | established
deriving DecidableEq, Repr, Fintype

/-- Negotiation-level events for one peer; each decision-callback verdict is
carried on the event. -/
inductive HEvent
  | recvHello (accept : Bool)
  | recvPresentation (accept : Bool)
  | requestSession
  | recvSessionRequest (accept : Bool)
  | recvSession (accept : Bool)
  | lose
deriving DecidableEq, Repr, Fintype

/-- Observable outputs of the handshake machine for one peer. -/
inductive HOutput
  | sendPresentation
  | sendSessionRequest
  | acceptSessionRequest
  | sessionEstablished (isNew : Bool)
  | sessionFailed (isNew : Bool)
  | sessionLost
deriving DecidableEq, Repr

/-- Modelled from the spec, section 3 (PeerSession): the per-peer state the
handshake machine keeps — the negotiation phase and whether an established
session instance currently exists with this peer (the spec's "established
flag", which feeds the `isNew` flag of `session_established`). -/
structure PeerState where
  phase : Phase
  hasSession : Bool
deriving DecidableEq, Repr, Fintype

/-- Modelled from the spec, sections 4.1 and 4.2: one step of the per-peer
handshake machine.  An accepted PRESENTATION moves the negotiation to
`presented` (a rejected one drops it back to idle); SESSION_REQUEST traffic,
outbound or inbound, requires an accepted presentation; an accepted SESSION
fires `session_established` whose `isNew` flag is true exactly when no session
with this peer existed before (a re-negotiation of an existing session is a
silent re-key, reported with `isNew = false`); a rejected SESSION fires
`session_failed` without tearing down any existing established session; losing
an established session fires `session_lost` once and returns the peer to idle.
The engine source is missing from the visible tree. -/
def hstep (s : PeerState) : HEvent → PeerState × List HOutput
  | .recvHello accept =>
      (s, if accept then [HOutput.sendPresentation] else [])
  | .recvPresentation accept =>
      if accept then ({ s with phase := Phase.presented }, [])
      else ({ s with phase := Phase.idle }, [])
  | .requestSession =>
      match s.phase with
      | .idle => (s, [])
      | .presented =>
          ({ s with phase := Phase.sessionRequested }, [HOutput.sendSessionRequest])
      | .sessionRequested => (s, [HOutput.sendSessionRequest])
      | .established => (s, [HOutput.sendSessionRequest])
  | .recvSessionRequest accept =>
      match s.phase with
      | .idle => (s, [])
      | _ => if accept then (s, [HOutput.acceptSessionRequest]) else (s, [])
  | .recvSession accept =>
      match s.phase with
      | .sessionRequested =>
          if accept then
            ({ phase := Phase.established, hasSession := true },
             [HOutput.sessionEstablished (!s.hasSession)])
          else
            ({ s with phase := Phase.idle },
             [HOutput.sessionFailed (!s.hasSession)])
      | .established =>
          if accept then
            ({ phase := Phase.established, hasSession := true },
             [HOutput.sessionEstablished (!s.hasSession)])
          else (s, [HOutput.sessionFailed (!s.hasSession)])
      | _ => (s, [])
  | .lose =>
      if s.hasSession then
        ({ phase := Phase.idle, hasSession := false }, [HOutput.sessionLost])
      else (s, [])

/-- Run the handshake machine over a list of events, collecting outputs. -/
def hrun (s : PeerState) : List HEvent → PeerState × List HOutput
  | [] => (s, [])
  | e :: es =>
      ((hrun (hstep s e).1 es).1, (hstep s e).2 ++ (hrun (hstep s e).1 es).2)

/-- The fresh per-peer state: idle, no session. -/
def initPeer : PeerState := { phase := Phase.idle, hasSession := false }

/-- The `isNew` flag, for `session_established` outputs. -/
def estFlag : HOutput → Option Bool
  | .sessionEstablished b => some b
  | _ => none

/-! ## close() — cancellation (spec model) -/

/-- Modelled from the spec, section 3: the lifecycle state of one
PeerSession as seen by `close()`. -/
inductive SessState
  | idle
  | negotiating
  | established
  | lost
deriving DecidableEq, Repr

/-- Modelled from the spec, sections 5 and 6: the per-local-endpoint state
`close()` acts on — the session registry (peer id, session state) and the
identifiers of in-flight asynchronous operations awaiting completion. -/
structure ServerState where
  sessions : List (Nat × SessState)
  pendingOps : List Nat
deriving DecidableEq, Repr

/-- Application-visible effects of `close()`. -/
inductive CloseEffect
  | completionAborted (op : Nat)
  | sessionLostCb (peer : Nat)
deriving DecidableEq, Repr

/-- Modelled from the spec, section 5 (Cancellation): `close()` on a local
endpoint cancels all in-flight operations — each pending completion fires with
an operation-aborted error — and synchronously transitions every ESTABLISHED
session to LOST, firing `session_lost` for each.  The engine source is
missing from the visible tree. -/
def close (st : ServerState) : ServerState × List CloseEffect :=
  ({ sessions := st.sessions.map fun ps =>
       (ps.1, if ps.2 = SessState.established then SessState.lost else ps.2),
     pendingOps := [] },
   st.pendingOps.map CloseEffect.completionAborted ++
     (st.sessions.filter fun ps => ps.2 == SessState.established).map
       fun ps => CloseEffect.sessionLostCb ps.1)

/-! ## greet() — HELLO timeout (spec model) -/

/-- Outcome carried by a greet completion handler. -/
inductive GreetOutcome
  | timedOut
  | succeeded
  | aborted
deriving DecidableEq, Repr

/-- Modelled from the spec, sections 4.1 and 7: the state of one local
endpoint around a `greet` call — the current clock tick, the pending greet's
absolute deadline (if one is in flight), and whether the endpoint has been
shut down. -/
structure GreetState where
  now : Nat
  deadline : Option Nat
  closed : Bool
deriving DecidableEq, Repr

/-- Modelled from the spec, section 4.1: `greet(endpoint)` sends HELLO and
starts a bounded-time wait — a pending operation whose deadline is the
configured timeout from now. -/
def greet (timeout : Nat) (st : GreetState) : GreetState :=
  { st with deadline := some (st.now + timeout) }

/-- Modelled from the spec, sections 4.1 and 7: one clock tick during which no
datagram arrives (the endpoint has no responder).  When the pending greet's
deadline is reached its completion fires exactly once with a timeout error and
the operation is retired; the endpoint itself is untouched — a timeout is
never fatal. -/
def tick (st : GreetState) : GreetState × List GreetOutcome :=
  let t := st.now + 1
  match st.deadline with
  | some d =>
      if d ≤ t then
        ({ st with now := t, deadline := none }, [GreetOutcome.timedOut])
      else ({ st with now := t }, [])
  | none => ({ st with now := t }, [])

/-- Run `n` responderless clock ticks, collecting every completion fired. -/
def run_ticks (st : GreetState) : Nat → GreetState × List GreetOutcome
  | 0 => (st, [])
  | n + 1 =>
      ((run_ticks (tick st).1 n).1, (tick st).2 ++ (run_ticks (tick st).1 n).2)

/-- A freshly opened endpoint: clock at zero, nothing in flight, not closed. -/
def initGreet : GreetState := { now := 0, deadline := none, closed := false }

/-! ## Contact directory (spec model) -/

/-- Modelled from the spec, section 4.4: handling one received
CONTACT_REQUEST.  `dir` is the responder's directory mapping certificate
hashes to the most-recently-seen endpoint, `accept` the contact-request
decision callback, `hashes` the requested hash list.  For each requested hash
present in the directory and accepted by the callback, exactly one CONTACT
reply carrying `(hash, target)` is sent back; a hash absent from the directory
or vetoed yields no reply at all.  The engine source is missing from the
visible tree. -/
def handle_contact_request (dir : List (Nat × Nat)) (accept : Nat → Nat → Bool)
    (hashes : List Nat) : List (Nat × Nat) :=
  hashes.filterMap fun h =>
    match dir.lookup h with
    | some t => if accept h t then some (h, t) else none
    | none => none

end Fscp

/-! ## Theorems -/

namespace Client

lemma run_signals_slot_off (cs : List Signal) (n : Nat) :
    run_signals cs { slotSet := false, stopCount := n } =
      { slotSet := false, stopCount := n } := by
  induction cs with
  | nil => rfl
  | cons c cs ih =>
      have h : signal_handler c { slotSet := false, stopCount := n } =
          { slotSet := false, stopCount := n } := by
        simp [signal_handler]
      simp [run_signals, h, ih]

lemma run_signals_slot_on (cs : List Signal) (n : Nat) :
    (run_signals cs { slotSet := true, stopCount := n }).stopCount =
      n + (if cs.any isStopSignal then 1 else 0) := by
  induction cs generalizing n with
  | nil => simp [run_signals]
  | cons c cs ih =>
      by_cases h : isStopSignal c = true
      · have hs : signal_handler c { slotSet := true, stopCount := n } =
            { slotSet := false, stopCount := n + 1 } := by
          simp [signal_handler, h]
        simp [run_signals, hs, run_signals_slot_off, List.any_cons, h]
      · have hs : signal_handler c { slotSet := true, stopCount := n } =
            { slotSet := true, stopCount := n } := by
          simp [signal_handler, h]
        simp [run_signals, hs, ih, List.any_cons, h]

/-- C9: starting from the state right after `stop_function` is assigned, a
whole run of caught signals invokes the stop function exactly once when some
caught signal is SIGTERM, SIGINT or SIGABRT, and never twice: the first stop
signal nulls the slot, so every later caught signal is a no-op. -/
theorem c9_stop_function_invoked_at_most_once (cs : List Signal) :
    (run_signals cs { slotSet := true, stopCount := 0 }).stopCount =
      (if cs.any isStopSignal then 1 else 0) := by
  simpa using run_signals_slot_on cs 0

/-- C10: the sample's data-received handler issues the channel-4 counter
reply back to the sender exactly when the local endpoint's name is "alice" or
"chris"; in particular bob's handler issues no send at all and leaves the
shared counter unchanged. -/
theorem c10_on_data_reply_iff_alice_or_chris (name : String) (sender channel : Nat)
    (data : List Nat) (counter : Nat) :
    ((on_data name sender channel data counter).sends =
        if name = "alice" ∨ name = "chris" then
          [{ dest := sender, channel := CHANNEL_NUMBER_4,
             payload := encode_counter counter }]
        else []) ∧
    ((on_data name sender channel data counter).counter =
        if name = "alice" ∨ name = "chris" then counter + 1 else counter) ∧
    (on_data "bob" sender channel data counter).sends = [] ∧
    (on_data "bob" sender channel data counter).counter = counter := by
  refine ⟨?_, ?_, ?_, ?_⟩ <;>
    · simp only [on_data]
      split <;> simp_all

end Client

namespace Fscp

/-- C7: on a HELLO the engine invokes the accept-decision callback with the
sender endpoint and the default-accept flag, and it sends its own PRESENTATION
to the sender if and only if the callback accepted — automatically, with no
introduce operation appearing as an input. -/
theorem c7_hello_invokes_callback_and_auto_presents (cb : Nat → Bool → Bool)
    (sender : Nat) (defaultAccept : Bool) :
    HelloEffect.callbackInvoked sender defaultAccept ∈
        handle_hello cb sender defaultAccept ∧
    (HelloEffect.sendPresentationTo sender ∈ handle_hello cb sender defaultAccept ↔
      cb sender defaultAccept = true) := by
  constructor
  · simp [handle_hello]
  · cases h : cb sender defaultAccept <;> simp [handle_hello, h]

/-- C8: a received datagram that is not a correctly tagged DATA message, or
whose authentication tag does not verify, or whose sequence number is replayed
or not beyond the last accepted one, is dropped: no payload is delivered to
the application and the session state is untouched. -/
theorem c8_invalid_datagram_dropped_silently (st : SessionRecv) (d : Datagram)
    (h : ¬(d.tag = MsgType.dataMsg ∧
           d.auth = auth_tag st.key d.seq d.channel d.payload ∧
           st.lastSeq < d.seq)) :
    recv_data st d = (none, st) := by
  simp only [recv_data, if_neg h]

/-- C8 witness: a replayed sequence number (3, with 5 already accepted) is
dropped with no delivery and no state change. -/
theorem c8_invalid_datagram_dropped_silently_witness :
    recv_data ⟨0, 5⟩ ⟨MsgType.dataMsg, 1, 3, [2], 99⟩ = (none, ⟨0, 5⟩) :=
  c8_invalid_datagram_dropped_silently ⟨0, 5⟩ ⟨MsgType.dataMsg, 1, 3, [2], 99⟩
    (by decide)

lemma aead_roundtrip (key seq : Nat) (b : List Nat) (hb : ∀ x ∈ b, x < 256) :
    aead_decrypt key seq (aead_encrypt key seq b) = b := by
  induction b with
  | nil => rfl
  | cons x xs ih =>
      have hx : x < 256 := hb x (by simp)
      have hxs : ∀ y ∈ xs, y < 256 := fun y hy => hb y (by simp [hy])
      simp only [aead_encrypt, aead_decrypt, List.map_cons] at *
      rw [ih hxs]
      simp only [List.cons.injEq, and_true]
      omega

/-- C1: over an established session (matching key, receiver's window behind
the sender's counter), a byte sequence sent on channel `c` is delivered to the
receiver's data handler with channel `c` and a byte-for-byte equal payload. -/
theorem c1_data_round_trip (ks : SessionSend) (kr : SessionRecv)
    (hkey : kr.key = ks.key) (hseq : kr.lastSeq ≤ ks.seq)
    (c : Nat) (b : List Nat) (hb : ∀ x ∈ b, x < 256) :
    (recv_data kr (send_data ks c b).1).1 = some (c, b) := by
  have hcond : (send_data ks c b).1.tag = MsgType.dataMsg ∧
      (send_data ks c b).1.auth = auth_tag kr.key (send_data ks c b).1.seq
        (send_data ks c b).1.channel (send_data ks c b).1.payload ∧
      kr.lastSeq < (send_data ks c b).1.seq := by
    refine ⟨rfl, ?_, ?_⟩
    · simp [send_data, hkey]
    · simp only [send_data]
      omega
  simp only [recv_data, if_pos hcond]
  simp [send_data, hkey, aead_roundtrip _ _ _ hb]

/-- C1 witness: "Hi" ([72, 105]) sent on channel 3 over a fresh session with
key 7 arrives byte-for-byte on channel 3. -/
theorem c1_data_round_trip_witness :
    (recv_data ⟨7, 0⟩ (send_data ⟨7, 0⟩ 3 [72, 105]).1).1 = some (3, [72, 105]) :=
  c1_data_round_trip ⟨7, 0⟩ ⟨7, 0⟩ rfl (by decide) 3 [72, 105] (by decide)

lemma hstep_est_cases : ∀ (s : PeerState) (e : HEvent),
    HOutput.sessionLost ∈ (hstep s e).2 ∨
    ((hstep s e).2.filterMap estFlag = [] ∧
      (hstep s e).1.hasSession = s.hasSession) ∨
    ((hstep s e).2.filterMap estFlag = [!s.hasSession] ∧
      (hstep s e).1.hasSession = true) := by
  decide

lemma hrun_flags (es : List HEvent) (s : PeerState)
    (h : HOutput.sessionLost ∉ (hrun s es).2) :
    (s.hasSession = true →
      ∀ b ∈ ((hrun s es).2).filterMap estFlag, b = false) ∧
    (s.hasSession = false →
      ((hrun s es).2).filterMap estFlag = [] ∨
      ∃ t, ((hrun s es).2).filterMap estFlag = true :: t ∧ ∀ b ∈ t, b = false) := by
  induction es generalizing s with
  | nil => simp [hrun]
  | cons e es ih =>
      simp only [hrun, List.mem_append, not_or] at h
      obtain ⟨h1, h2⟩ := h
      have ihs := ih (hstep s e).1 h2
      simp only [hrun, List.filterMap_append]
      rcases hstep_est_cases s e with hc | ⟨hfl, hkeep⟩ | ⟨hfl, htrue⟩
      · exact absurd hc h1
      · constructor
        · intro hs b hb
          rw [hfl, List.nil_append] at hb
          exact ihs.1 (hkeep.trans hs) b hb
        · intro hs
          rw [hfl, List.nil_append]
          exact ihs.2 (hkeep.trans hs)
      · have hall := ihs.1 htrue
        constructor
        · intro hs b hb
          rw [hfl, hs] at hb
          simp only [Bool.not_true, List.cons_append, List.mem_cons] at hb
          rcases hb with hb | hb
          · exact hb
          · exact hall b hb
        · intro hs
          rw [hfl, hs]
          right
          exact ⟨((hrun (hstep s e).1 es).2).filterMap estFlag, by simp, hall⟩

/-- C2: in any run of the per-peer handshake machine from a fresh peer during
which no session is lost, `session_established` fires with `isNew = true` at
most once, and every `session_established` after the first reports
`isNew = false` (successful re-negotiations are re-keys of the existing
session). -/
theorem c2_is_new_fires_once_then_false (es : List HEvent)
    (h : HOutput.sessionLost ∉ (hrun initPeer es).2) :
    (((hrun initPeer es).2).filterMap estFlag).count true ≤ 1 ∧
    (((hrun initPeer es).2).filterMap estFlag = [] ∨
      ∃ t, ((hrun initPeer es).2).filterMap estFlag = true :: t ∧
        ∀ b ∈ t, b = false) := by
  have hshape := (hrun_flags es initPeer h).2 rfl
  refine ⟨?_, hshape⟩
  rcases hshape with hnil | ⟨t, ht, hall⟩
  · simp [hnil]
  · rw [ht]
    have : t.count true = 0 := by
      rw [List.count_eq_zero]
      intro hmem
      exact absurd (hall true hmem) (by simp)
    simp [List.count_cons, this]

/-- C2 witness: a full handshake then one re-negotiation, with no loss, fires
`session_established` with flags `true` then `false`. -/
theorem c2_is_new_fires_once_then_false_witness :
    (((hrun initPeer [HEvent.recvPresentation true, HEvent.requestSession,
        HEvent.recvSession true, HEvent.requestSession,
        HEvent.recvSession true]).2).filterMap estFlag).count true ≤ 1 ∧
    (((hrun initPeer [HEvent.recvPresentation true, HEvent.requestSession,
        HEvent.recvSession true, HEvent.requestSession,
        HEvent.recvSession true]).2).filterMap estFlag = [] ∨
      ∃ t, ((hrun initPeer [HEvent.recvPresentation true, HEvent.requestSession,
        HEvent.recvSession true, HEvent.requestSession,
        HEvent.recvSession true]).2).filterMap estFlag = true :: t ∧
        ∀ b ∈ t, b = false) :=
  c2_is_new_fires_once_then_false
    [HEvent.recvPresentation true, HEvent.requestSession,
     HEvent.recvSession true, HEvent.requestSession, HEvent.recvSession true]
    (by decide)

lemma hstep_idle_no_session_request : ∀ (s : PeerState) (e : HEvent),
    s.phase = Phase.idle → e ≠ HEvent.recvPresentation true →
    (hstep s e).1.phase = Phase.idle ∧
    HOutput.sendSessionRequest ∉ (hstep s e).2 ∧
    HOutput.acceptSessionRequest ∉ (hstep s e).2 := by
  decide

lemma hrun_idle_no_session_request (es : List HEvent) (s : PeerState)
    (hs : s.phase = Phase.idle)
    (h : ∀ e ∈ es, e ≠ HEvent.recvPresentation true) :
    HOutput.sendSessionRequest ∉ (hrun s es).2 ∧
    HOutput.acceptSessionRequest ∉ (hrun s es).2 := by
  induction es generalizing s with
  | nil => simp [hrun]
  | cons e es ih =>
      have he := h e (by simp)
      have hstep1 := hstep_idle_no_session_request s e hs he
      have ihs := ih (hstep s e).1 hstep1.1 fun x hx => h x (by simp [hx])
      simp only [hrun, List.mem_append, not_or]
      exact ⟨⟨hstep1.2.1, ihs.1⟩, hstep1.2.2, ihs.2⟩

/-- C6: after the presentation decision callback rejects a peer, no
SESSION_REQUEST is sent to that peer and none received from it is accepted,
throughout any continuation in which no later PRESENTATION from the peer is
accepted. -/
theorem c6_rejected_presentation_blocks_session_request (s : PeerState)
    (es : List HEvent) (h : ∀ e ∈ es, e ≠ HEvent.recvPresentation true) :
    HOutput.sendSessionRequest ∉ (hrun s (HEvent.recvPresentation false :: es)).2 ∧
    HOutput.acceptSessionRequest ∉ (hrun s (HEvent.recvPresentation false :: es)).2 := by
  have h0 : hstep s (HEvent.recvPresentation false) =
      ({ s with phase := Phase.idle }, []) := by
    simp [hstep]
  have := hrun_idle_no_session_request es { s with phase := Phase.idle } rfl h
  simp only [hrun, h0, List.nil_append]
  exact this

/-- C6 witness: after a rejected presentation, a session request attempt, an
inbound SESSION_REQUEST and an inbound SESSION produce no session-request
traffic at all. -/
theorem c6_rejected_presentation_blocks_session_request_witness :
    HOutput.sendSessionRequest ∉ (hrun initPeer (HEvent.recvPresentation false ::
      [HEvent.requestSession, HEvent.recvSessionRequest true,
       HEvent.recvSession true, HEvent.recvHello true])).2 ∧
    HOutput.acceptSessionRequest ∉ (hrun initPeer (HEvent.recvPresentation false ::
      [HEvent.requestSession, HEvent.recvSessionRequest true,
       HEvent.recvSession true, HEvent.recvHello true])).2 :=
  c6_rejected_presentation_blocks_session_request initPeer
    [HEvent.requestSession, HEvent.recvSessionRequest true,
     HEvent.recvSession true, HEvent.recvHello true] (by decide)

lemma count_sessionLostCb_map (l : List (Nat × SessState)) (p : Nat) :
    (l.map fun ps => CloseEffect.sessionLostCb ps.1).count
        (CloseEffect.sessionLostCb p) = (l.map Prod.fst).count p := by
  induction l with
  | nil => rfl
  | cons x l ih =>
      simp only [List.map_cons, List.count_cons, ih]
      by_cases h : x.1 = p <;> simp [h]

lemma count_completionAborted_map (l : List Nat) (op : Nat) :
    (l.map CloseEffect.completionAborted).count
        (CloseEffect.completionAborted op) = l.count op := by
  induction l with
  | nil => rfl
  | cons x l ih =>
      simp only [List.map_cons, List.count_cons, ih]
      by_cases h : x = op <;> simp [h]

lemma completionAborted_not_mem_lost (l : List (Nat × SessState)) (op : Nat) :
    CloseEffect.completionAborted op ∉
      l.map fun ps => CloseEffect.sessionLostCb ps.1 := by
  simp [List.mem_map]

lemma sessionLostCb_not_mem_aborted (l : List Nat) (p : Nat) :
    CloseEffect.sessionLostCb p ∉ l.map CloseEffect.completionAborted := by
  simp [List.mem_map]

/-- C3: `close()` fires every pending in-flight completion exactly once with
the operation-aborted error, fires `session_lost` exactly once for each peer
whose session was ESTABLISHED at the moment of the close (and for no other
peer), and transitions those sessions to LOST. -/
theorem c3_close_aborts_pending_and_loses_established (st : ServerState)
    (hops : st.pendingOps.Nodup)
    (hpeers : (st.sessions.map Prod.fst).Nodup) :
    (∀ op ∈ st.pendingOps,
      ((close st).2).count (CloseEffect.completionAborted op) = 1) ∧
    (∀ p, (p, SessState.established) ∈ st.sessions →
      ((close st).2).count (CloseEffect.sessionLostCb p) = 1 ∧
      (p, SessState.lost) ∈ (close st).1.sessions) ∧
    (∀ p ss, (p, ss) ∈ st.sessions → ss ≠ SessState.established →
      CloseEffect.sessionLostCb p ∉ (close st).2) := by
  have hfsub : ((st.sessions.filter fun ps =>
      ps.2 == SessState.established).map Prod.fst).Sublist
        (st.sessions.map Prod.fst) :=
    (List.filter_sublist _).map Prod.fst
  have hfnodup : ((st.sessions.filter fun ps =>
      ps.2 == SessState.established).map Prod.fst).Nodup :=
    hfsub.nodup hpeers
  refine ⟨?_, ?_, ?_⟩
  · intro op hop
    simp only [close, List.count_append]
    rw [count_completionAborted_map,
      List.count_eq_zero.2 (completionAborted_not_mem_lost _ op),
      List.count_eq_one_of_mem hops hop]
  · intro p hp
    constructor
    · simp only [close, List.count_append]
      rw [List.count_eq_zero.2 (sessionLostCb_not_mem_aborted _ p),
        count_sessionLostCb_map]
      have hmem : p ∈ (st.sessions.filter fun ps =>
          ps.2 == SessState.established).map Prod.fst := by
        refine List.mem_map.2 ⟨(p, SessState.established), ?_, rfl⟩
        exact List.mem_filter.2 ⟨hp, by simp⟩
      rw [List.count_eq_one_of_mem hfnodup hmem]
    · simp only [close]
      refine List.mem_map.2 ⟨(p, SessState.established), hp, by simp⟩
  · intro p ss hmem hne hcontra
    simp only [close, List.mem_append] at hcontra
    rcases hcontra with hc | hc
    · exact sessionLostCb_not_mem_aborted _ p hc
    · obtain ⟨ps, hps, hpe⟩ := List.mem_map.1 hc
      obtain ⟨hin, hest⟩ := List.mem_filter.1 hps
      have hps1 : ps.1 = p := by
        injection hpe
      have hest2 : ps.2 = SessState.established := by
        simpa using hest
      have hpair : (p, SessState.established) ∈ st.sessions := by
        have : ps = (p, SessState.established) := by
          rcases ps with ⟨a, b⟩
          simp_all
        rwa [this] at hin
      have := List.inj_on_of_nodup_map hpeers hmem hpair rfl
      exact hne (by injection this with h1 h2)

/-- C3 witness: closing an endpoint with one in-flight operation, one
established session and one idle session aborts the operation once, loses the
established peer's session once, and marks it LOST. -/
theorem c3_close_aborts_pending_and_loses_established_witness :
    ((close ⟨[(1, SessState.established), (2, SessState.idle)], [100]⟩).2).count
        (CloseEffect.completionAborted 100) = 1 ∧
    ((close ⟨[(1, SessState.established), (2, SessState.idle)], [100]⟩).2).count
        (CloseEffect.sessionLostCb 1) = 1 ∧
    (1, SessState.lost) ∈
      (close ⟨[(1, SessState.established), (2, SessState.idle)], [100]⟩).1.sessions ∧
    CloseEffect.sessionLostCb 2 ∉
      (close ⟨[(1, SessState.established), (2, SessState.idle)], [100]⟩).2 := by
  have h := c3_close_aborts_pending_and_loses_established
    ⟨[(1, SessState.established), (2, SessState.idle)], [100]⟩
    (by decide) (by decide)
  exact ⟨h.1 100 (by decide), (h.2.1 1 (by decide)).1, (h.2.1 1 (by decide)).2,
    h.2.2 2 SessState.idle (by decide) (by decide)⟩

lemma run_ticks_no_deadline (n : Nat) (st : GreetState) (h : st.deadline = none) :
    (run_ticks st n).2 = [] ∧ (run_ticks st n).1.closed = st.closed ∧
    (run_ticks st n).1.deadline = none := by
  induction n generalizing st with
  | zero => simp [run_ticks, h]
  | succ n ih =>
      have ht : tick st = ({ st with now := st.now + 1 }, []) := by
        simp [tick, h]
      have ihs := ih { st with now := st.now + 1 } h
      simp only [run_ticks, ht]
      simpa using ihs

lemma run_ticks_pending (n : Nat) : ∀ (k : Nat) (st : GreetState), 0 < k →
    st.deadline = some (st.now + k) →
    ((run_ticks st n).2.count GreetOutcome.timedOut = if k ≤ n then 1 else 0) ∧
    (run_ticks st n).1.closed = st.closed ∧
    (k ≤ n → (run_ticks st n).1.deadline = none) := by
  induction n with
  | zero =>
      intro k st hk _
      refine ⟨?_, rfl, fun h => absurd h (by omega)⟩
      simp only [run_ticks, List.count_nil]
      rw [if_neg (by omega)]
  | succ n ih =>
      intro k st hk hd
      by_cases h1 : k = 1
      · subst h1
        have ht : tick st =
            ({ st with now := st.now + 1, deadline := none },
             [GreetOutcome.timedOut]) := by
          simp only [tick, hd]
          rw [if_pos (by omega)]
        have hrest := run_ticks_no_deadline n
          { st with now := st.now + 1, deadline := none } rfl
        simp only [run_ticks, ht, List.count_append, hrest.1]
        refine ⟨?_, by simpa using hrest.2.1, fun _ => hrest.2.2⟩
        rw [if_pos (by omega)]
        rfl
      · have ht : tick st = ({ st with now := st.now + 1 }, []) := by
          simp only [tick, hd]
          rw [if_neg (by omega)]
        have ihs := ih (k - 1) { st with now := st.now + 1 } (by omega)
          (by simp only [hd]; congr 1; omega)
        simp only [run_ticks, ht, List.count_append, List.count_nil,
          List.nil_append]
        refine ⟨?_, by simpa using ihs.2.1, fun hkn => ihs.2.2 (by omega)⟩
        rw [ihs.1]
        by_cases h2 : k ≤ n + 1
        · rw [if_pos (by omega), if_pos h2]
        · rw [if_neg (by omega), if_neg h2]

/-- C4: a `greet` to an endpoint with no responder fires its completion
handler exactly once, with a timeout error, and only after the configured
timeout bound has elapsed (zero completions have fired in any shorter run);
the endpoint is not closed by this, and the operation slot is free again, so
the caller may retry. -/
theorem c4_greet_times_out_exactly_once (timeout n : Nat) (hpos : 0 < timeout) :
    ((run_ticks (greet timeout initGreet) n).2.count GreetOutcome.timedOut =
        if timeout ≤ n then 1 else 0) ∧
    (run_ticks (greet timeout initGreet) n).1.closed = false ∧
    (timeout ≤ n → (run_ticks (greet timeout initGreet) n).1.deadline = none) := by
  have h := run_ticks_pending n timeout (greet timeout initGreet) hpos
    (by simp [greet, initGreet])
  simpa [greet, initGreet] using h

/-- C4 witness: with a 2-tick timeout and no responder, a 5-tick run fires the
timeout completion exactly once, a 1-tick run fires nothing, and the endpoint
stays open. -/
theorem c4_greet_times_out_exactly_once_witness :
    ((run_ticks (greet 2 initGreet) 5).2.count GreetOutcome.timedOut =
        if 2 ≤ 5 then 1 else 0) ∧
    (run_ticks (greet 2 initGreet) 5).1.closed = false ∧
    (2 ≤ 5 → (run_ticks (greet 2 initGreet) 5).1.deadline = none) :=
  c4_greet_times_out_exactly_once 2 5 (by decide)

lemma hcr_mem_iff (dir : List (Nat × Nat)) (accept : Nat → Nat → Bool)
    (hashes : List Nat) (h t : Nat) :
    (h, t) ∈ handle_contact_request dir accept hashes ↔
      h ∈ hashes ∧ dir.lookup h = some t ∧ accept h t = true := by
  simp only [handle_contact_request, List.mem_filterMap]
  constructor
  · rintro ⟨a, ha, hf⟩
    cases hl : dir.lookup a with
    | none => simp [hl] at hf
    | some t2 =>
        simp only [hl] at hf
        by_cases hac : accept a t2 = true
        · simp only [hac, if_true, Option.some.injEq] at hf
          obtain ⟨rfl, rfl⟩ : a = h ∧ t2 = t := by
            simpa [Prod.ext_iff] using hf
          exact ⟨ha, hl, hac⟩
        · simp [hac] at hf
  · rintro ⟨hh, hl, hac⟩
    exact ⟨h, hh, by simp [hl, hac]⟩

lemma hcr_fst_sublist (dir : List (Nat × Nat)) (accept : Nat → Nat → Bool) :
    ∀ hashes : List Nat,
      ((handle_contact_request dir accept hashes).map Prod.fst).Sublist hashes := by
  intro hashes
  induction hashes with
  | nil => simp [handle_contact_request]
  | cons a as ih =>
      simp only [handle_contact_request, List.filterMap_cons] at *
      cases hl : dir.lookup a with
      | none =>
          simp only []
          exact ih.cons a
      | some t2 =>
          by_cases hac : accept a t2 = true
          · simp only [hac, if_true, List.map_cons]
            exact ih.cons₂ a
          · simp only [hac, if_false]
            exact ih.cons a

lemma count_pair_le_count_fst (l : List (Nat × Nat)) (h t : Nat) :
    l.count (h, t) ≤ (l.map Prod.fst).count h := by
  induction l with
  | nil => simp
  | cons x l ih =>
      simp only [List.count_cons, List.map_cons, beq_iff_eq]
      split <;> split <;> first | omega | simp_all

/-- C5: on a received CONTACT_REQUEST, a CONTACT reply carrying
`(hash, target)` goes out if and only if the hash is in the responder's
directory with that target and the contact-request decision callback accepts
it, and (for a duplicate-free request) each such reply goes out at most once;
a hash absent from the directory or vetoed yields no reply at all. -/
theorem c5_contact_reply_iff_known_and_accepted (dir : List (Nat × Nat))
    (accept : Nat → Nat → Bool) (hashes : List Nat) (hnd : hashes.Nodup)
    (h t : Nat) :
    ((h, t) ∈ handle_contact_request dir accept hashes ↔
      h ∈ hashes ∧ dir.lookup h = some t ∧ accept h t = true) ∧
    (handle_contact_request dir accept hashes).count (h, t) ≤ 1 := by
  refine ⟨hcr_mem_iff dir accept hashes h t, ?_⟩
  calc (handle_contact_request dir accept hashes).count (h, t)
      ≤ ((handle_contact_request dir accept hashes).map Prod.fst).count h :=
        count_pair_le_count_fst _ h t
    _ ≤ hashes.count h := (hcr_fst_sublist dir accept hashes).count_le h
    _ ≤ 1 := List.nodup_iff_count_le_one.1 hnd h

/-- C5 witness: with directory `[(1, 10)]` and a permissive callback, the
request `[1, 2]` yields the reply `(1, 10)` exactly once, and no reply for the
unknown hash 2. -/
theorem c5_contact_reply_iff_known_and_accepted_witness :
    ((1, 10) ∈ handle_contact_request [(1, 10)] (fun _ _ => true) [1, 2] ↔
      1 ∈ [1, 2] ∧ ([(1, 10)] : List (Nat × Nat)).lookup 1 = some 10 ∧
        (fun _ _ => true : Nat → Nat → Bool) 1 10 = true) ∧
    (handle_contact_request [(1, 10)] (fun _ _ => true) [1, 2]).count (1, 10) ≤ 1 :=
  c5_contact_reply_iff_known_and_accepted [(1, 10)] (fun _ _ => true) [1, 2]
    (by decide) 1 10

end Fscp
